import Mathlib

/-!
Verification development for the 3AC interpreter (vm.py, controller.py,
instruction.py, stack_frame.py).

The execution engine is shallowly embedded: Python values become the
inductive `Value` (a Python float is stored as a rational
numerator/denominator pair; every finite binary64 value is such a
rational, and division rounds to the nearest binary64 exactly as CPython
does — see `roundPosRatToDouble`), Python dicts become association
lists whose key lookup uses Python `==` (`pyEq`), and every mutating
method of the `VM` class becomes a function from `VMState` to `VMState`
(paired with an `Option RTErr` where the Python code can raise, since a
raise leaves the mutations made so far in place).
-/

/-- A runtime value of the interpreter: one of Python int, float, bool,
str, the pointer tuples `(kind, location)` built by `_get_variable_address`,
or Python `None` (an absent value).  A Python float is stored as the
rational `num / den` (den kept positive by construction); every finite
binary64 value is such a rational, and `pyDiv` produces exactly the
binary64 CPython stores.  The remaining float operations (`+`, `-`, `*`,
`%`, float literals) are kept exact — no claim depends on their rounding. -/
inductive Value where
  | intV (n : Int)
  | floatV (num : Int) (den : Nat)
  | boolV (b : Bool)
  | strV (s : String)
  | ptrV (kind : String) (loc : Value)
  | noneV
deriving DecidableEq, Repr

/-- Numeric view of a value: Python treats bool as an int (`True == 1`),
and an int as the rational `n/1`.  `none` for non-numeric values. -/
def numView : Value → Option (Int × Nat)
  | .intV n => some (n, 1)
  | .boolV b => some (if b then 1 else 0, 1)
  | .floatV n d => some (n, d)
  | _ => none

/-- `isinstance(x, int)` view: Python bool is a subclass of int, so both
ints and bools pass the check (floats do not). -/
def numViewInt : Value → Option Int
  | .intV n => some n
  | .boolV b => some (if b then 1 else 0)
  | _ => none

/-- Python `==` on engine values: numeric values compare by rational value
(so `0 == 0.0 == False`), strings by content, pointer tuples componentwise,
`None` only to `None`; everything else is unequal. -/
def pyEq : Value → Value → Bool
  | .strV s, .strV t => s == t
  | .ptrV k1 p1, .ptrV k2 p2 => k1 == k2 && pyEq p1 p2
  | .noneV, .noneV => true
  | .strV _, _ => false
  | _, .strV _ => false
  | .ptrV _ _, _ => false
  | _, .ptrV _ _ => false
  | .noneV, _ => false
  | _, .noneV => false
  | a, b =>
    match numView a, numView b with
    | some (n1, d1), some (n2, d2) => n1 * (d2 : Int) == n2 * (d1 : Int)
    | _, _ => false

/-- Python truthiness of an engine value. -/
def pyTruthy : Value → Bool
  | .intV n => n != 0
  | .floatV n _ => n != 0
  | .boolV b => b
  | .strV s => s != ""
  | .ptrV _ _ => true
  | .noneV => false

/-- A Python dict with `Value` keys, as an insertion-ordered association
list; lookup matches keys with Python `==`. -/
abbrev PyDict := List (Value × Value)

/-- Dict lookup (`d[k]` / `d.get(k)`): first entry whose key is `==` to `k`. -/
def dget : PyDict → Value → Option Value
  | [], _ => none
  | (k2, v) :: rest, k => if pyEq k2 k then some v else dget rest k

/-- Dict lookup with a default (`d.get(k)` returns `None` when missing). -/
def dgetD (d : PyDict) (k : Value) (dflt : Value) : Value :=
  (dget d k).getD dflt

/-- Dict membership (`k in d`). -/
def dmem (d : PyDict) (k : Value) : Bool :=
  (dget d k).isSome

/-- Dict update (`d[k] = v`): overwrite in place (keeping the original key
object and position, as CPython does) or append a new entry. -/
def dset : PyDict → Value → Value → PyDict
  | [], k, v => [(k, v)]
  | (k2, w) :: rest, k, v =>
    if pyEq k2 k then (k2, v) :: rest else (k2, w) :: dset rest k v

/-- The label table: a dict keyed by label-name strings. -/
abbrev LabelTable := List (String × Nat)

def lget : LabelTable → String → Option Nat
  | [], _ => none
  | (k2, v) :: rest, k => if k2 == k then some v else lget rest k

def lset : LabelTable → String → Nat → LabelTable
  | [], k, v => [(k, v)]
  | (k2, w) :: rest, k, v =>
    if k2 == k then (k2, v) :: rest else (k2, w) :: lset rest k v

/-- `Instruction` (instruction.py): opcode, operand list, source line. -/
structure Instr where
  opcode : String
  operands : List Value
  line_num : Nat
deriving DecidableEq, Repr

/-- `StackFrame` (stack_frame.py): activation record for one call. -/
structure Frame where
  func_name : Value
  return_address : Nat
  return_var_name : Value
  locals : PyDict
  params : PyDict
deriving DecidableEq, Repr

/-- A runtime fault: Python raises an exception; only its message reaches
the console, so only the message is modelled. -/
structure RTErr where
  msg : String
deriving DecidableEq, Repr

/-- The engine state: the mutable fields of the `VM` object.  The head of
`call_stack` is the top frame (Python indexes the top as `[-1]`); the
console widget is an append-only list of emitted strings. -/
structure VMState where
  program : List Instr
  labels : LabelTable
  pc : Nat
  global_memory : PyDict
  heap : List Value
  free_heap_slots : List Nat
  call_stack : List Frame
  current_params : List Value
  running : Bool
  halted : Bool
  console : List String
deriving DecidableEq, Repr

/-- `VM.reset_state`: fresh memory, a 100-slot heap with every slot free,
and the console banner; `program` and `labels` are kept. -/
def resetState (st : VMState) : VMState :=
  { st with
    pc := 0
    global_memory := []
    heap := List.replicate 100 Value.noneV
    free_heap_slots := List.range 100
    call_stack := []
    current_params := []
    running := false
    halted := false
    console := ["--- VM Console ---\n"] }

/-- The state right after `VM.__init__` (which ends in `reset_state`). -/
def initVM : VMState :=
  resetState
    { program := [], labels := [], pc := 0, global_memory := [], heap := []
      free_heap_slots := [], call_stack := [], current_params := []
      running := false, halted := false, console := [] }

/-- `VM._allocate_heap_slot`: pop the head of the free list; when the free
list is exhausted, extend the heap by 50 `None` slots, append the new
indices to the free list, and pop. -/
def allocateHeapSlot (st : VMState) : VMState × Nat :=
  match st.free_heap_slots with
  | a :: rest => ({ st with free_heap_slots := rest }, a)
  | [] =>
    let heap2 := st.heap ++ List.replicate 50 Value.noneV
    let free2 := List.range' st.heap.length 50
    match free2 with
    | a :: rest => ({ st with heap := heap2, free_heap_slots := rest }, a)
    | [] => ({ st with heap := heap2, free_heap_slots := [] }, 0)

/-- `VM._free_heap_slot`: for an in-range address, clear the slot (if it
held a value) and append the index to the free-list tail unless already
present; otherwise log a warning and do nothing. -/
def freeHeapSlot (st : VMState) (addr : Int) : VMState :=
  if 0 ≤ addr ∧ addr < (st.heap.length : Int) then
    let a := addr.toNat
    let st1 :=
      if st.heap.getD a Value.noneV ≠ Value.noneV then
        { st with heap := st.heap.set a Value.noneV }
      else st
    if a ∈ st1.free_heap_slots then st1
    else { st1 with free_heap_slots := st1.free_heap_slots ++ [a] }
  else
    { st with console := st.console ++
        ["Warning: Attempted to free invalid or out-of-bounds heap address " ++
         toString addr ++ "\n"] }

/-- `VM._get_value_from_pointer`: resolve a pointer tuple to the heap, the
global scope, or the top frame locals; non-tuples and bad heap addresses
raise. -/
def getValueFromPointer (st : VMState) (pointer : Value) : Except RTErr Value :=
  match pointer with
  | .ptrV k loc =>
    if k == "heap" then
      match numViewInt loc with
      | some n =>
        if 0 ≤ n ∧ n < (st.heap.length : Int) then .ok (st.heap.getD n.toNat Value.noneV)
        else .error ⟨"Invalid heap address in pointer"⟩
      | none => .error ⟨"Invalid heap address in pointer"⟩
    else if k == "global" then .ok (dgetD st.global_memory loc Value.noneV)
    else if k == "local" then
      match st.call_stack with
      | [] => .error ⟨"Attempted to access local pointer with no active stack frame."⟩
      | f :: _ => .ok (dgetD f.locals loc Value.noneV)
    else .error ⟨"Unknown pointer type " ++ k⟩
  | _ => .error ⟨"Invalid pointer format"⟩

/-- `VM._set_value_at_pointer`: store through a pointer tuple. -/
def setValueAtPointer (st : VMState) (pointer : Value) (v : Value) :
    VMState × Option RTErr :=
  match pointer with
  | .ptrV k loc =>
    if k == "heap" then
      match numViewInt loc with
      | some n =>
        if 0 ≤ n ∧ n < (st.heap.length : Int) then
          ({ st with heap := st.heap.set n.toNat v }, none)
        else (st, some ⟨"Invalid heap address in pointer"⟩)
      | none => (st, some ⟨"Invalid heap address in pointer"⟩)
    else if k == "global" then
      ({ st with global_memory := dset st.global_memory loc v }, none)
    else if k == "local" then
      match st.call_stack with
      | [] => (st, some ⟨"Attempted to set local pointer value with no active stack frame."⟩)
      | f :: rest =>
        ({ st with call_stack := { f with locals := dset f.locals loc v } :: rest }, none)
    else (st, some ⟨"Unknown pointer type " ++ k⟩)
  | _ => (st, some ⟨"Invalid pointer format for storing"⟩)

/-- `VM._get_operand_value`: literals are returned unchanged; a name is
resolved against the top frame locals (verbatim), then the top frame
parameters (dereferencing a bound pointer tuple), then the global scope;
an unknown name yields `None`. -/
def getOperandValue (st : VMState) (operand : Value) : Except RTErr Value :=
  match operand with
  | .strV s =>
    let fromGlobal : Except RTErr Value :=
      match dget st.global_memory (.strV s) with
      | some v => .ok v
      | none => .ok Value.noneV
    match st.call_stack with
    | f :: _ =>
      match dget f.locals (.strV s) with
      | some v => .ok v
      | none =>
        match dget f.params (.strV s) with
        | some p =>
          match p with
          | .ptrV k loc =>
            if k == "heap" || k == "global" || k == "local" then
              getValueFromPointer st (.ptrV k loc)
            else .ok (.ptrV k loc)
          | _ => .ok p
        | none => fromGlobal
    | [] => fromGlobal
  | v => .ok v

/-- `VM._set_variable_value`: with an active frame the value always lands
in the top frame locals (both source branches write there; a non-string
name not already a key raises on `startswith`); with no frame it lands in
the global scope. -/
def setVariableValue (st : VMState) (name v : Value) : VMState × Option RTErr :=
  match st.call_stack with
  | f :: rest =>
    if dmem f.locals name then
      ({ st with call_stack := { f with locals := dset f.locals name v } :: rest }, none)
    else
      match name with
      | .strV s =>
        ({ st with call_stack := { f with locals := dset f.locals (.strV s) v } :: rest }, none)
      | _ => (st, some ⟨"AttributeError: startswith"⟩)
  | [] => ({ st with global_memory := dset st.global_memory name v }, none)

/-- `VM._get_variable_address`: `local` if the name is a key of the top
frame locals or params, else `global` (also for names seen nowhere). -/
def getVariableAddress (st : VMState) (name : Value) : Value :=
  match st.call_stack with
  | f :: _ =>
    if dmem f.locals name || dmem f.params name then .ptrV "local" name
    else .ptrV "global" name
  | [] => .ptrV "global" name

/-- Python `str()` rendering of a value, used by `PRINT`, `CONCAT` and
f-strings.  Exact for ints, bools, strings and `None`; a float (here an
exact rational) is rendered as `num.0` when integral and `num/den`
otherwise, an approximation of CPython float repr that no claim relies
on. -/
def pyStr : Value → String
  | .intV n => toString n
  | .floatV n d => if d == 1 then toString n ++ ".0" else toString n ++ "/" ++ toString d
  | .boolV b => if b then "True" else "False"
  | .strV s => s
  | .ptrV k loc => "(" ++ k ++ ", " ++ pyStr loc ++ ")"
  | .noneV => "None"

/-- Whether a value is a Python float. -/
def isFloat : Value → Bool
  | .floatV _ _ => true
  | _ => false

/-- Python `s * n` string repetition. -/
def strRepeat (s : String) (n : Int) : String :=
  (List.replicate n.toNat s).foldl (· ++ ·) ""

/-- Python `+`: string concatenation, or numeric addition tagged float when
either side is a float; anything else raises `TypeError`. -/
def pyAdd (a b : Value) : Except RTErr Value :=
  match a, b with
  | .strV s, .strV t => .ok (.strV (s ++ t))
  | _, _ =>
    match numView a, numView b with
    | some (n1, d1), some (n2, d2) =>
      if isFloat a || isFloat b then .ok (.floatV (n1 * d2 + n2 * d1) (d1 * d2))
      else .ok (.intV (n1 + n2))
    | _, _ => .error ⟨"unsupported operand types for +"⟩

/-- Python `-` (binary). -/
def pySub (a b : Value) : Except RTErr Value :=
  match numView a, numView b with
  | some (n1, d1), some (n2, d2) =>
    if isFloat a || isFloat b then .ok (.floatV (n1 * d2 - n2 * d1) (d1 * d2))
    else .ok (.intV (n1 - n2))
  | _, _ => .error ⟨"unsupported operand types for -"⟩

/-- Python `*`: numeric product, or string repetition by an int. -/
def pyMul (a b : Value) : Except RTErr Value :=
  match a, b with
  | .strV s, _ =>
    match numViewInt b with
    | some n => .ok (.strV (strRepeat s n))
    | none => .error ⟨"unsupported operand types for *"⟩
  | _, .strV s =>
    match numViewInt a with
    | some n => .ok (.strV (strRepeat s n))
    | none => .error ⟨"unsupported operand types for *"⟩
  | _, _ =>
    match numView a, numView b with
    | some (n1, d1), some (n2, d2) =>
      if isFloat a || isFloat b then .ok (.floatV (n1 * n2) (d1 * d2))
      else .ok (.intV (n1 * n2))
    | _, _ => .error ⟨"unsupported operand types for *"⟩

/-- Bit length of a natural number (`floor (log2 n) + 1`, 0 for 0),
fuel-structured so the kernel can evaluate it. -/
def bitlenAux : Nat → Nat → Nat
  | 0, _ => 0
  | fuel + 1, n => if n == 0 then 0 else bitlenAux fuel (n / 2) + 1

def bitlen (n : Nat) : Nat := bitlenAux n n

/-- Round the positive rational `N / D` to the nearest integer, ties to
even (the IEEE-754 default rounding). -/
def rndNearestEven (N D : Nat) : Nat :=
  let q := N / D
  let r := N % D
  if 2 * r < D then q
  else if D < 2 * r then q + 1
  else if q % 2 == 0 then q else q + 1

/-- `floor (log2 (n / d))` for positive `n`, `d`: the bit lengths pin the
exponent to two candidates, and one shifted comparison decides. -/
def qFloorLog2 (n d : Nat) : Int :=
  let e0 : Int := (bitlen n : Int) - (bitlen d : Int)
  if 0 ≤ e0 then
    if d * 2 ^ e0.toNat ≤ n then e0 else e0 - 1
  else
    if d ≤ n * 2 ^ (-e0).toNat then e0 else e0 - 1

/-- Strip common factors of two from `q / 2^k`, giving the canonical
dyadic pair that Python's `float.as_integer_ratio` returns. -/
def stripTwos : Nat → Nat → Nat × Nat
  | q, 0 => (q, 0)
  | q, k + 1 =>
    if q == 0 then (0, 0)
    else if q % 2 == 0 then stripTwos (q / 2) k
    else (q, k + 1)

/-- Correctly round the positive rational `N / D` to an IEEE-754 binary64
(round to nearest, ties to even; precision 53, subnormals below `2^-1022`,
units of `2^-1074`): the double's exact value as a canonical dyadic pair
`(numerator, power-of-two denominator)`, or `none` when the rounded
magnitude reaches `2^1024` (overflow). -/
def roundPosRatToDouble (N D : Nat) : Option (Nat × Nat) :=
  if N == 0 then some (0, 1)
  else
    let e := qFloorLog2 N D
    let t : Int := max (e - 52) (-1074)
    if 0 ≤ t then
      let q := rndNearestEven N (D * 2 ^ t.toNat)
      if 2 ^ 1024 ≤ q * 2 ^ t.toNat then none
      else some (q * 2 ^ t.toNat, 1)
    else
      let q := rndNearestEven (N * 2 ^ (-t).toNat) D
      let p := stripTwos q (-t).toNat
      some (p.1, 2 ^ p.2)

/-- Signed version of the binary64 rounding (the rounding is
sign-symmetric). -/
def roundRatToDouble (num : Int) (den : Nat) : Option (Int × Nat) :=
  match roundPosRatToDouble num.natAbs den with
  | none => none
  | some (m, k) => some (if num < 0 then -(m : Int) else (m : Int), k)

/-- Python `/` (true division): always a float; the caller has already
ruled out a zero divisor.  The exact quotient `(n1/d1) / (n2/d2) =
(n1*d2) / (d1*n2)` (sign moved into the numerator) is rounded to the
nearest IEEE-754 binary64, which is what CPython stores.  A quotient
whose rounded magnitude reaches `2^1024` is modelled as an error: CPython
raises `OverflowError` for int operands (infinities, which it produces
for float operands there, are outside this value model). -/
def pyDiv (a b : Value) : Except RTErr Value :=
  match numView a, numView b with
  | some (n1, d1), some (n2, d2) =>
    let num := if n2 < 0 then -(n1 * d2) else n1 * d2
    let den := d1 * n2.natAbs
    match roundRatToDouble num den with
    | some (m, k) => .ok (.floatV m k)
    | none => .error ⟨"integer division result too large for a float"⟩
  | _, _ => .error ⟨"unsupported operand types for /"⟩

/-- Python `%`: floored modulo (result sign follows the divisor); int when
both operands are int-like, float otherwise. -/
def pyMod (a b : Value) : Except RTErr Value :=
  match numView a, numView b with
  | some (n1, d1), some (n2, d2) =>
    if isFloat a || isFloat b then
      let q := Int.fdiv (n1 * d2) ((d1 : Int) * n2)
      .ok (.floatV (n1 * d2 - q * n2 * d1) (d1 * d2))
    else .ok (.intV (Int.fmod n1 n2))
  | _, _ => .error ⟨"unsupported operand types for %"⟩

/-- Python ordering comparisons: numeric cross-multiplication or string
lexicographic order; mixed types raise `TypeError`. -/
def pyCmp (fi : Int → Int → Bool) (fs : String → String → Bool) (a b : Value) :
    Except RTErr Bool :=
  match a, b with
  | .strV s, .strV t => .ok (fs s t)
  | _, _ =>
    match numView a, numView b with
    | some (n1, d1), some (n2, d2) => .ok (fi (n1 * d2) (n2 * d1))
    | _, _ => .error ⟨"unsupported comparison between operand types"⟩

/-- Python `int(x)`: ints and bools directly, floats truncated toward
zero, strings parsed as an optionally signed digit run (after stripping
whitespace); anything else raises. -/
def pyInt (v : Value) : Except RTErr Int :=
  match v with
  | .intV n => .ok n
  | .boolV b => .ok (if b then 1 else 0)
  | .floatV n d => .ok (Int.tdiv n d)
  | .strV s =>
    let cs := (s.toList.dropWhile Char.isWhitespace).reverse.dropWhile Char.isWhitespace |>.reverse
    let body := match cs with
      | '-' :: rest => if rest ≠ [] ∧ rest.all Char.isDigit then
          some (-(rest.foldl (fun a c => a * 10 + ((c.toNat : Int) - 48)) 0)) else none
      | '+' :: rest => if rest ≠ [] ∧ rest.all Char.isDigit then
          some (rest.foldl (fun a c => a * 10 + ((c.toNat : Int) - 48)) 0) else none
      | _ => if cs ≠ [] ∧ cs.all Char.isDigit then
          some (cs.foldl (fun a c => a * 10 + ((c.toNat : Int) - 48)) 0) else none
    match body with
    | some n => .ok n
    | none => .error ⟨"invalid literal for int()"⟩
  | _ => .error ⟨"int() argument must be a number or string"⟩

/-- The 1-character string at (in-range) position `j` of `s`. -/
def pyCharAt (s : String) (j : Nat) : String :=
  String.singleton (s.toList.getD j 'a')

/-- Python string indexing `s[i]`: negative indices count from the end;
out of range is an `IndexError`.  The result is the 1-character string
Python returns. -/
def pyStrIndex (s : String) (i : Int) : Option String :=
  let n : Int := s.length
  let j := if i < 0 then n + i else i
  if 0 ≤ j ∧ j < n then some (pyCharAt s j.toNat) else none

/-- A handler returns the (possibly partially) mutated state and the
raised exception, if any: a Python raise keeps prior mutations. -/
abbrev HResult := VMState × Option RTErr

/-- `VM._handle_assignment` (`ASSIGN`, `CONST_ASSIGN`). -/
def handleAssignment (st : VMState) (instr : Instr) : HResult :=
  if instr.opcode == "ASSIGN" then
    match instr.operands with
    | [target, source] =>
      match getOperandValue st source with
      | .error e => (st, some e)
      | .ok v =>
        match setVariableValue st target v with
        | (st1, some e) => (st1, some e)
        | (st1, none) => ({ st1 with pc := st1.pc + 1 }, none)
    | _ => (st, some ⟨"cannot unpack operands"⟩)
  else
    match instr.operands with
    | [target, v] =>
      match setVariableValue st target v with
      | (st1, some e) => (st1, some e)
      | (st1, none) => ({ st1 with pc := st1.pc + 1 }, none)
    | _ => (st, some ⟨"cannot unpack operands"⟩)

/-- `VM._handle_arithmetic`: binary arithmetic, comparison and boolean
opcodes; `DIV`/`MOD` check the divisor against 0 with Python `==` first. -/
def handleArithmetic (st : VMState) (instr : Instr) : HResult :=
  match instr.operands with
  | [target, op1, op2] =>
    match getOperandValue st op1 with
    | .error e => (st, some e)
    | .ok v1 =>
      match getOperandValue st op2 with
      | .error e => (st, some e)
      | .ok v2 =>
        let result : Except RTErr Value :=
          if instr.opcode == "ADD" then pyAdd v1 v2
          else if instr.opcode == "SUB" then pySub v1 v2
          else if instr.opcode == "MUL" then pyMul v1 v2
          else if instr.opcode == "DIV" then
            if pyEq v2 (.intV 0) then .error ⟨"Division by zero"⟩ else pyDiv v1 v2
          else if instr.opcode == "MOD" then
            if pyEq v2 (.intV 0) then .error ⟨"Modulo by zero"⟩ else pyMod v1 v2
          else if instr.opcode == "EQ" then .ok (.boolV (pyEq v1 v2))
          else if instr.opcode == "NE" then .ok (.boolV (!pyEq v1 v2))
          else if instr.opcode == "LT" then (pyCmp (· < ·) (· < ·) v1 v2).map .boolV
          else if instr.opcode == "LE" then (pyCmp (· ≤ ·) (· ≤ ·) v1 v2).map .boolV
          else if instr.opcode == "GT" then (pyCmp (· > ·) (· > ·) v1 v2).map .boolV
          else if instr.opcode == "GE" then (pyCmp (· ≥ ·) (· ≥ ·) v1 v2).map .boolV
          else if instr.opcode == "OR" then .ok (if pyTruthy v1 then v1 else v2)
          else .ok (if pyTruthy v1 then v2 else v1)
        match result with
        | .error e => (st, some e)
        | .ok r =>
          match setVariableValue st target r with
          | (st1, some e) => (st1, some e)
          | (st1, none) => ({ st1 with pc := st1.pc + 1 }, none)
  | _ => (st, some ⟨"cannot unpack operands"⟩)

/-- `VM._handle_string` (`CONCAT`, `STRLEN`, `GETCHAR`). -/
def handleString (st : VMState) (instr : Instr) : HResult :=
  if instr.opcode == "CONCAT" then
    match instr.operands with
    | [target, s1, s2] =>
      match getOperandValue st s1 with
      | .error e => (st, some e)
      | .ok v1 =>
        match getOperandValue st s2 with
        | .error e => (st, some e)
        | .ok v2 =>
          match setVariableValue st target (.strV (pyStr v1 ++ pyStr v2)) with
          | (st1, some e) => (st1, some e)
          | (st1, none) => ({ st1 with pc := st1.pc + 1 }, none)
    | _ => (st, some ⟨"cannot unpack operands"⟩)
  else if instr.opcode == "STRLEN" then
    match instr.operands with
    | [target, sOp] =>
      match getOperandValue st sOp with
      | .error e => (st, some e)
      | .ok v =>
        match v with
        | .strV s =>
          match setVariableValue st target (.intV s.length) with
          | (st1, some e) => (st1, some e)
          | (st1, none) => ({ st1 with pc := st1.pc + 1 }, none)
        | _ => (st, some ⟨"STRLEN expects a string"⟩)
    | _ => (st, some ⟨"cannot unpack operands"⟩)
  else
    match instr.operands with
    | [target, sOp, iOp] =>
      match getOperandValue st sOp with
      | .error e => (st, some e)
      | .ok sv =>
        match getOperandValue st iOp with
        | .error e => (st, some e)
        | .ok iv =>
          match sv with
          | .strV s =>
            match numViewInt iv with
            | some i =>
              match pyStrIndex s i with
              | some c =>
                match setVariableValue st target (.strV c) with
                | (st1, some e) => (st1, some e)
                | (st1, none) => ({ st1 with pc := st1.pc + 1 }, none)
              | none => (st, some ⟨"string index out of range"⟩)
            | none => (st, some ⟨"GETCHAR expects an integer index"⟩)
          | _ => (st, some ⟨"GETCHAR expects a string"⟩)
    | _ => (st, some ⟨"cannot unpack operands"⟩)

/-- `VM._handle_jump` (`JUMP`, `JUMPT`, `JUMPF`): after a successful load
the first operand is the resolved instruction index. -/
def handleJump (st : VMState) (instr : Instr) : HResult :=
  if instr.opcode == "JUMP" then
    match instr.operands with
    | .intV n :: _ => ({ st with pc := n.toNat }, none)
    | _ => (st, some ⟨"invalid jump target"⟩)
  else
    match instr.operands with
    | [.intV n, cond] =>
      match getOperandValue st cond with
      | .error e => (st, some e)
      | .ok v =>
        let take := if instr.opcode == "JUMPT" then pyTruthy v else !pyTruthy v
        if take then ({ st with pc := n.toNat }, none)
        else ({ st with pc := st.pc + 1 }, none)
    | _ => (st, some ⟨"invalid jump target"⟩)

/-- Bind pending parameters positionally to `ARG0..ARGn-1`. -/
def bindArgs (ps : List Value) : PyDict :=
  (ps.enum).map (fun p => (Value.strV ("ARG" ++ toString p.1), p.2))

/-- The value a `RETURN` evaluates (under the callee scope, before the
pop): its first operand, or `None` when no operand was given. -/
def evalReturnValue (st : VMState) (ops : List Value) : Except RTErr Value :=
  match ops with
  | [] => .ok Value.noneV
  | o :: _ => getOperandValue st o

/-- `VM._handle_function` (`PARAM`, `REF_PARAM`, `CALL`, `RETURN`). -/
def handleFunction (st : VMState) (instr : Instr) : HResult :=
  if instr.opcode == "PARAM" then
    match instr.operands with
    | v :: _ =>
      match getOperandValue st v with
      | .error e => (st, some e)
      | .ok w =>
        ({ st with current_params := st.current_params ++ [w], pc := st.pc + 1 }, none)
    | [] => (st, some ⟨"list index out of range"⟩)
  else if instr.opcode == "REF_PARAM" then
    match instr.operands with
    | v :: _ =>
      let addr := getVariableAddress st v
      ({ st with current_params := st.current_params ++ [addr], pc := st.pc + 1 }, none)
    | [] => (st, some ⟨"list index out of range"⟩)
  else if instr.opcode == "CALL" then
    match instr.operands with
    | [f, np, rv] =>
      match pyInt np with
      | .error e => (st, some e)
      | .ok n =>
        if (st.current_params.length : Int) ≠ n then
          (st, some ⟨"Function parameter count mismatch"⟩)
        else
          let frame : Frame :=
            { func_name := f, return_address := st.pc + 1, return_var_name := rv
              locals := bindArgs st.current_params, params := bindArgs st.current_params }
          let st1 := { st with call_stack := frame :: st.call_stack, current_params := [] }
          match f with
          | .strV s =>
            match lget st1.labels s with
            | some idx => ({ st1 with pc := idx }, none)
            | none => (st1, some ⟨"KeyError"⟩)
          | _ => (st1, some ⟨"KeyError"⟩)
    | _ => (st, some ⟨"cannot unpack operands"⟩)
  else
    match evalReturnValue st instr.operands with
    | .error e => (st, some e)
    | .ok v =>
      match st.call_stack with
      | [] => (st, some ⟨"RETURN instruction outside of a function call. Halting."⟩)
      | f :: rest =>
        let st1 := { st with call_stack := rest, pc := f.return_address }
        if pyTruthy f.return_var_name then setVariableValue st1 f.return_var_name v
        else (st1, none)

/-- Run `_allocate_heap_slot` `n` times, collecting the addresses. -/
def allocateN (st : VMState) : Nat → VMState × List Nat
  | 0 => (st, [])
  | n + 1 =>
    let (st1, a) := allocateHeapSlot st
    let (st2, rest) := allocateN st1 n
    (st2, a :: rest)

/-- `VM._handle_heap` (`ALLOC_HEAP`, `FREE_HEAP`, `ADDR_OF`, `DEREF_LOAD`,
`DEREF_STORE`, `INDEX_LOAD`, `INDEX_STORE`). -/
def handleHeap (st : VMState) (instr : Instr) : HResult :=
  if instr.opcode == "ALLOC_HEAP" then
    match instr.operands with
    | [target, sizeOp] =>
      match getOperandValue st sizeOp with
      | .error e => (st, some e)
      | .ok sv =>
        match numViewInt sv with
        | some n =>
          if n ≤ 0 then (st, some ⟨"ALLOC_HEAP size must be a positive integer"⟩)
          else
            let (st1, addrs) := allocateN st n.toNat
            let st2 := { st1 with
              heap := addrs.foldl (fun h a => h.set a Value.noneV) st1.heap }
            match addrs with
            | [] => (st2, some ⟨"Failed to allocate heap memory"⟩)
            | a :: _ =>
              match setVariableValue st2 target (.intV a) with
              | (st3, some e) => (st3, some e)
              | (st3, none) => ({ st3 with pc := st3.pc + 1 }, none)
        | none => (st, some ⟨"ALLOC_HEAP size must be a positive integer"⟩)
    | _ => (st, some ⟨"cannot unpack operands"⟩)
  else if instr.opcode == "FREE_HEAP" then
    match instr.operands with
    | ptrOp :: _ =>
      match getOperandValue st ptrOp with
      | .error e => (st, some e)
      | .ok pv =>
        let st1 :=
          match numViewInt pv with
          | some a =>
            if 0 ≤ a ∧ a < (st.heap.length : Int) then
              let st2 := freeHeapSlot st a
              { st2 with console := st2.console ++
                  ["Note: Simplified FREE_HEAP for address " ++ toString a ++ " called.\n"] }
            else { st with console := st.console ++
                ["Warning: FREE_HEAP called with invalid address: " ++ pyStr pv ++ "\n"] }
          | none => { st with console := st.console ++
              ["Warning: FREE_HEAP called with invalid address: " ++ pyStr pv ++ "\n"] }
        ({ st1 with pc := st1.pc + 1 }, none)
    | [] => (st, some ⟨"list index out of range"⟩)
  else if instr.opcode == "ADDR_OF" then
    match instr.operands with
    | [target, source] =>
      match setVariableValue st target (getVariableAddress st source) with
      | (st1, some e) => (st1, some e)
      | (st1, none) => ({ st1 with pc := st1.pc + 1 }, none)
    | _ => (st, some ⟨"cannot unpack operands"⟩)
  else if instr.opcode == "DEREF_LOAD" then
    match instr.operands with
    | [target, ptrOp] =>
      match getOperandValue st ptrOp with
      | .error e => (st, some e)
      | .ok p =>
        match getValueFromPointer st p with
        | .error e => (st, some e)
        | .ok v =>
          match setVariableValue st target v with
          | (st1, some e) => (st1, some e)
          | (st1, none) => ({ st1 with pc := st1.pc + 1 }, none)
    | _ => (st, some ⟨"cannot unpack operands"⟩)
  else if instr.opcode == "DEREF_STORE" then
    match instr.operands with
    | [ptrOp, valOp] =>
      match getOperandValue st ptrOp with
      | .error e => (st, some e)
      | .ok p =>
        match getOperandValue st valOp with
        | .error e => (st, some e)
        | .ok v =>
          match setValueAtPointer st p v with
          | (st1, some e) => (st1, some e)
          | (st1, none) => ({ st1 with pc := st1.pc + 1 }, none)
    | _ => (st, some ⟨"cannot unpack operands"⟩)
  else if instr.opcode == "INDEX_LOAD" then
    match instr.operands with
    | [target, baseOp, idxOp] =>
      match getOperandValue st baseOp with
      | .error e => (st, some e)
      | .ok bv =>
        match getOperandValue st idxOp with
        | .error e => (st, some e)
        | .ok iv =>
          match numViewInt bv with
          | some b =>
            if 0 ≤ b ∧ b < (st.heap.length : Int) then
              match numViewInt iv with
              | some i =>
                let eff := b + i
                if 0 ≤ eff ∧ eff < (st.heap.length : Int) then
                  match setVariableValue st target (st.heap.getD eff.toNat Value.noneV) with
                  | (st1, some e) => (st1, some e)
                  | (st1, none) => ({ st1 with pc := st1.pc + 1 }, none)
                else (st, some ⟨"INDEX_LOAD address out of bounds"⟩)
              | none => (st, some ⟨"INDEX_LOAD index must be an integer"⟩)
            else (st, some ⟨"INDEX_LOAD invalid base address"⟩)
          | none => (st, some ⟨"INDEX_LOAD invalid base address"⟩)
    | _ => (st, some ⟨"cannot unpack operands"⟩)
  else
    match instr.operands with
    | [baseOp, idxOp, valOp] =>
      match getOperandValue st baseOp with
      | .error e => (st, some e)
      | .ok bv =>
        match getOperandValue st idxOp with
        | .error e => (st, some e)
        | .ok iv =>
          match getOperandValue st valOp with
          | .error e => (st, some e)
          | .ok v =>
            match numViewInt bv with
            | some b =>
              if 0 ≤ b ∧ b < (st.heap.length : Int) then
                match numViewInt iv with
                | some i =>
                  let eff := b + i
                  if 0 ≤ eff ∧ eff < (st.heap.length : Int) then
                    ({ st with heap := st.heap.set eff.toNat v, pc := st.pc + 1 }, none)
                  else (st, some ⟨"INDEX_STORE address out of bounds"⟩)
                | none => (st, some ⟨"INDEX_STORE index must be an integer"⟩)
              else (st, some ⟨"INDEX_STORE invalid base address"⟩)
            | none => (st, some ⟨"INDEX_STORE invalid base address"⟩)
    | _ => (st, some ⟨"cannot unpack operands"⟩)

/-- `VM._handle_misc` (`PRINT`, `HALT`, `UMINUS`). -/
def handleMisc (st : VMState) (instr : Instr) : HResult :=
  if instr.opcode == "PRINT" then
    match instr.operands with
    | v :: _ =>
      match getOperandValue st v with
      | .error e => (st, some e)
      | .ok w =>
        ({ st with console := st.console ++ ["Output: " ++ pyStr w ++ "\n"]
                   pc := st.pc + 1 }, none)
    | [] => (st, some ⟨"list index out of range"⟩)
  else if instr.opcode == "HALT" then
    ({ st with halted := true, running := false, pc := st.pc + 1
               console := st.console ++ ["--- Program Halted ---\n"] }, none)
  else
    match instr.operands with
    | [target, source] =>
      match getOperandValue st source with
      | .error e => (st, some e)
      | .ok v =>
        let neg : Except RTErr Value :=
          match v with
          | .intV n => .ok (.intV (-n))
          | .boolV b => .ok (.intV (-(if b then 1 else 0)))
          | .floatV n d => .ok (.floatV (-n) d)
          | _ => .error ⟨"bad operand type for unary -"⟩
        match neg with
        | .error e => (st, some e)
        | .ok r =>
          match setVariableValue st target r with
          | (st1, some e) => (st1, some e)
          | (st1, none) => ({ st1 with pc := st1.pc + 1 }, none)
    | _ => (st, some ⟨"cannot unpack operands"⟩)

/-- The opcode dispatch table built in `reset_state`. -/
def dispatchInstr (st : VMState) (instr : Instr) : Option HResult :=
  if instr.opcode == "ASSIGN" || instr.opcode == "CONST_ASSIGN" then
    some (handleAssignment st instr)
  else if instr.opcode == "ADD" || instr.opcode == "SUB" || instr.opcode == "MUL" ||
      instr.opcode == "DIV" || instr.opcode == "MOD" || instr.opcode == "EQ" ||
      instr.opcode == "NE" || instr.opcode == "LT" || instr.opcode == "LE" ||
      instr.opcode == "GT" || instr.opcode == "GE" || instr.opcode == "OR" ||
      instr.opcode == "AND" then
    some (handleArithmetic st instr)
  else if instr.opcode == "CONCAT" || instr.opcode == "STRLEN" ||
      instr.opcode == "GETCHAR" then
    some (handleString st instr)
  else if instr.opcode == "JUMP" || instr.opcode == "JUMPT" ||
      instr.opcode == "JUMPF" then
    some (handleJump st instr)
  else if instr.opcode == "PARAM" || instr.opcode == "REF_PARAM" ||
      instr.opcode == "CALL" || instr.opcode == "RETURN" then
    some (handleFunction st instr)
  else if instr.opcode == "PRINT" || instr.opcode == "HALT" ||
      instr.opcode == "UMINUS" then
    some (handleMisc st instr)
  else if instr.opcode == "ALLOC_HEAP" || instr.opcode == "FREE_HEAP" ||
      instr.opcode == "ADDR_OF" || instr.opcode == "DEREF_LOAD" ||
      instr.opcode == "DEREF_STORE" || instr.opcode == "INDEX_LOAD" ||
      instr.opcode == "INDEX_STORE" then
    some (handleHeap st instr)
  else none

/-- The runtime-error line `VM.step` logs for a caught exception; grouped
so the "Division by zero" core is a visible substring. -/
def errLine (ln pc : Nat) (e : RTErr) : String :=
  ("!!! Runtime Error at 3AC line " ++ toString ln ++ " (PC=" ++ toString pc ++ "): ")
    ++ e.msg ++ "\n"

/-- `VM.step`: execute one instruction.  Returns the new state and the
step result (`False` when the program is finished, halted, or faulted; a
fault is caught here, logged, and sets `running := false`). -/
def step (st : VMState) : VMState × Bool :=
  if !st.running || st.halted || st.program.length ≤ st.pc then
    ({ st with running := false }, false)
  else
    let instr := st.program.getD st.pc ⟨"", [], 0⟩
    match dispatchInstr st instr with
    | none =>
      ({ st with running := false
                 console := st.console ++
                   [errLine instr.line_num st.pc
                     ⟨"Unknown or unsupported opcode: " ++ instr.opcode⟩] }, false)
    | some (st1, some e) =>
      ({ st1 with running := false
                  console := st1.console ++ [errLine instr.line_num st1.pc e] }, false)
    | some (st1, none) =>
      if !st1.running then (st1, false) else (st1, true)

/-- A load-time failure (`VM.load_program` raises `ValueError`):
a malformed line, an undefined jump label, or indexing a missing jump
operand. -/
inductive LoadErr where
  | synErr (line : Nat) (text : String)
  | undefLabel (name : String) (line : Nat)
  | idxErr
deriving DecidableEq, Repr

/-- Python `str.strip()` default whitespace. -/
def pySpace (c : Char) : Bool :=
  c == ' ' || c == '\t' || c == '\n' || c == '\r' || c == '\x0b' || c == '\x0c'

/-- `str.strip()`. -/
def stripChars (cs : List Char) : List Char :=
  ((cs.dropWhile pySpace).reverse.dropWhile pySpace).reverse

/-- A regex `\w` word character (ASCII fragment). -/
def isWordChar (c : Char) : Bool :=
  c.isAlpha || c.isDigit || c == '_'

/-- `str.split(",")`: split at every comma (quotes are NOT respected;
this mirrors the source exactly). -/
def splitCommas : List Char → List (List Char)
  | [] => [[]]
  | c :: cs =>
    let r := splitCommas cs
    if c == ',' then [] :: r
    else
      match r with
      | h :: t => (c :: h) :: t
      | [] => [[c]]

/-- All-digits test for `\d+`. -/
def allDigits (cs : List Char) : Bool :=
  cs ≠ [] && cs.all Char.isDigit

/-- Digit run to a natural number. -/
def digitsToNat (cs : List Char) : Nat :=
  cs.foldl (fun a c => a * 10 + (c.toNat - 48)) 0

/-- `VM._parse_operand_value`: case-insensitive `true`/`false`, a
double-quoted string literal (content between the quotes), an integer
`-?\d+`, a float `-?\d+\.\d*`, else the text itself as a variable name. -/
def parseOperandValue (cs : List Char) : Value :=
  if cs.map Char.toLower == ['t', 'r', 'u', 'e'] then .boolV true
  else if cs.map Char.toLower == ['f', 'a', 'l', 's', 'e'] then .boolV false
  else if cs.head? == some '"' && cs.getLast? == some '"' then
    .strV ⟨(cs.drop 1).dropLast⟩
  else
    let body := match cs with
      | '-' :: rest => rest
      | _ => cs
    let sign : Int := match cs with
      | '-' :: _ => -1
      | _ => 1
    if allDigits body then .intV (sign * (digitsToNat body : Int))
    else
      let ip := body.takeWhile Char.isDigit
      let rest := body.drop ip.length
      match rest with
      | '.' :: frac =>
        if ip ≠ [] ∧ frac.all Char.isDigit then
          .floatV (sign * ((digitsToNat ip * 10 ^ frac.length + digitsToNat frac : Nat) : Int))
            (10 ^ frac.length)
        else .strV ⟨cs⟩
      | _ => .strV ⟨cs⟩

/-- The parsing loop of `VM.load_program`: walk the numbered source lines,
skipping blanks and comments, recording labels at the index of the next
emitted instruction (last definition wins), and tokenizing the rest into
instructions; a line whose head is not a word character is a syntax
error (the partial label table is kept, matching the mutation order). -/
def parseLines : List (Nat × List Char) → List Instr → LabelTable →
    List Instr × LabelTable × Option LoadErr
  | [], acc, labs => (acc, labs, none)
  | (i, line) :: rest, acc, labs =>
    let cs := stripChars line
    if cs.isEmpty || cs.head? == some '#' then parseLines rest acc labs
    else if cs.getLast? == some ':' then
      parseLines rest acc (lset labs ⟨cs.dropLast⟩ acc.length)
    else
      let opcode := cs.takeWhile isWordChar
      if opcode.isEmpty then (acc, labs, some (.synErr (i + 1) ⟨cs⟩))
      else
        let operandsStr := stripChars (cs.drop opcode.length)
        let operands :=
          if operandsStr.isEmpty then []
          else (splitCommas operandsStr).map (fun o => parseOperandValue (stripChars o))
        parseLines rest (acc ++ [⟨⟨opcode.map Char.toUpper⟩, operands, i⟩]) labs

/-- The label-resolution pass of `VM.load_program`: rewrite the first
operand of every `JUMP`/`JUMPT`/`JUMPF` from a label name to its index;
an unknown name stops the pass (instructions after it stay unresolved,
matching the in-place mutation up to the raise). -/
def resolveJumps (labs : LabelTable) : List Instr → List Instr × Option LoadErr
  | [] => ([], none)
  | instr :: rest =>
    if instr.opcode == "JUMP" || instr.opcode == "JUMPT" || instr.opcode == "JUMPF" then
      match instr.operands with
      | op0 :: ops =>
        match op0 with
        | .strV s =>
          match lget labs s with
          | some idx =>
            let (r, e) := resolveJumps labs rest
            ({ instr with operands := .intV idx :: ops } :: r, e)
          | none => (instr :: rest, some (.undefLabel s instr.line_num))
        | _ => (instr :: rest, some (.undefLabel (pyStr op0) instr.line_num))
      | [] => (instr :: rest, some .idxErr)
    else
      let (r, e) := resolveJumps labs rest
      (instr :: r, e)

/-- `VM.load_program`: reset the state, parse, install the instruction
sequence, resolve jump labels, and only then set `running := true`.  On
failure the exception propagates with the mutations made so far (in
particular the parsed program is already installed when label resolution
fails). -/
def loadProgram (tacLines : List String) (st : VMState) : VMState × Option LoadErr :=
  let st0 := { resetState st with program := [], labels := [] }
  let numbered := (tacLines.map String.toList).enum
  match parseLines numbered [] [] with
  | (_, labs, some e) => ({ st0 with labels := labs }, some e)
  | (raw, labs, none) =>
    let (prog, e) := resolveJumps labs raw
    let st1 := { st0 with labels := labs, program := prog }
    match e with
    | some e1 => (st1, some e1)
    | none => ({ st1 with running := true }, none)

/-- The record written by `Controller.export_vm_state`: pc, global scope,
serialized call stack, and a sparse map of the non-`None` heap slots. -/
structure VMStateRecord where
  pc : Nat
  global_memory : PyDict
  call_stack : List Frame
  heap : List (Nat × Value)
deriving DecidableEq, Repr

/-- `Controller.export_vm_state` (the record it serializes; the JSON file
itself is the persistence collaborator and outside the engine model). -/
def exportVMState (vm : VMState) : VMStateRecord :=
  { pc := vm.pc
    global_memory := vm.global_memory
    call_stack := vm.call_stack
    heap := vm.heap.enum.filter (fun p => decide (p.2 ≠ Value.noneV)) }

/-- The heap-rebuilding loop of `Controller.import_vm_state`: write each
in-range sparse entry into the reset heap. -/
def restoreHeap (pairs : List (Nat × Value)) (h : List Value) : List Value :=
  pairs.foldl (fun h2 p => if p.1 < h2.length then h2.set p.1 p.2 else h2) h

/-- `Controller.import_vm_state`: restore pc, global scope and call
stack, reset the heap to its current size and refill it from the sparse
map, then reconstruct the free-list as every index holding `None`. -/
def importVMState (r : VMStateRecord) (vm : VMState) : VMState :=
  let heap1 := restoreHeap r.heap (List.replicate vm.heap.length Value.noneV)
  { vm with
    pc := r.pc
    global_memory := r.global_memory
    call_stack := r.call_stack
    heap := heap1
    free_heap_slots :=
      (heap1.enum.filter (fun p => decide (p.2 = Value.noneV))).map Prod.fst }

-- Concrete heap-allocator run used by claim C3: fresh engine, allocate a
-- slot A, free it, allocate two more.
def c3Fresh : VMState := resetState initVM
def c3Alloc1 : VMState × Nat := allocateHeapSlot c3Fresh
def c3Freed : VMState := freeHeapSlot c3Alloc1.1 (c3Alloc1.2 : Int)
def c3Alloc2 : VMState × Nat := allocateHeapSlot c3Freed
def c3Alloc3 : VMState × Nat := allocateHeapSlot c3Alloc2.1

-- Concrete program exercising REF_PARAM binding (claim C1): x is a global
-- holding 5; its address is passed by reference and CALL binds it to ARG0.
def c1State0 : VMState :=
  { resetState initVM with
    program := [⟨"ASSIGN", [.strV "x", .intV 5], 0⟩,
                ⟨"REF_PARAM", [.strV "x"], 1⟩,
                ⟨"CALL", [.strV "f", .intV 1, .strV "r"], 2⟩,
                ⟨"HALT", [], 3⟩,
                ⟨"RETURN", [.strV "ARG0"], 4⟩]
    labels := [("f", 4)]
    running := true }

/-- The engine state after executing ASSIGN, REF_PARAM and CALL: the frame
for f is on top of the call stack with ARG0 bound to the pointer. -/
def c1State3 : VMState := (step (step (step c1State0).1).1).1

/-- Concrete state for the C5 witness: a RETURN at pc 0 with one frame on
the stack carrying return variable r and local t = 42. -/
def c5W : VMState :=
  { resetState initVM with
    program := [⟨"RETURN", [.strV "t"], 0⟩]
    running := true
    call_stack := [{ func_name := .strV "f", return_address := 7, return_var_name := .strV "r"
                     locals := [(.strV "t", .intV 42)], params := [] }] }

/-- Concrete state for the C8 witness: `DIV res, 10, 0` about to execute. -/
def c8W : VMState :=
  { resetState initVM with
    program := [⟨"DIV", [.strV "res", .intV 10, .intV 0], 0⟩]
    running := true }

/-- Concrete state for the C9 witness: `DIV res, 10, 2` about to execute. -/
def c9W : VMState :=
  { resetState initVM with
    program := [⟨"DIV", [.strV "res", .intV 10, .intV 2], 0⟩]
    running := true }

/-- Concrete state for the C9 counterexample: `DIV r, 1, 3` about to
execute (1/3 is not representable as a binary64). -/
def c9X : VMState :=
  { resetState initVM with
    program := [⟨"DIV", [.strV "r", .intV 1, .intV 3], 0⟩]
    running := true }

/-- Concrete state for the C10 witness: `GETCHAR c, s, -1` with the global
s holding the string abc. -/
def c10W : VMState :=
  { resetState initVM with
    global_memory := [(.strV "s", .strV "abc")]
    program := [⟨"GETCHAR", [.strV "c", .strV "s", .intV (-1)], 0⟩]
    running := true }

/-- List surgery helper: setting the element just past a prefix. -/
theorem listSetAppendLen (pre : List Value) (x y : Value) (suf : List Value) :
    (pre ++ x :: suf).set pre.length y = pre ++ y :: suf := by
  induction pre with
  | nil => rfl
  | cons a t ih => simp [List.set, ih]

/-- Refilling a fresh all-None heap from the sparse non-None map rebuilds
the original heap, slot for slot. -/
theorem restoreHeap_roundtrip (l pre : List Value) :
    restoreHeap ((List.enumFrom pre.length l).filter (fun p => decide (p.2 ≠ Value.noneV)))
      (pre ++ List.replicate l.length Value.noneV) = pre ++ l := by
  induction l generalizing pre with
  | nil => simp [restoreHeap, List.enumFrom]
  | cons v vs ih =>
    have h2 : ∀ x : Value, pre.length + 1 = (pre ++ [x]).length := by simp
    rw [List.length_cons, List.replicate_succ, List.enumFrom, List.filter_cons]
    by_cases hv : v = Value.noneV
    · subst hv
      rw [if_neg (by simp)]
      rw [List.append_cons pre Value.noneV (List.replicate vs.length Value.noneV)]
      rw [h2 Value.noneV, ih (pre ++ [Value.noneV])]
      simp
    · have hlt : pre.length < (pre ++ Value.noneV :: List.replicate vs.length Value.noneV).length := by
        simp
      rw [if_pos (by simpa using hv)]
      simp only [restoreHeap, List.foldl_cons]
      rw [if_pos hlt, listSetAppendLen]
      rw [List.append_cons pre v (List.replicate vs.length Value.noneV)]
      rw [h2 v]
      have h3 := ih (pre ++ [v])
      simp only [restoreHeap] at h3
      rw [h3]
      simp

/-- C4: exporting the engine state and importing the record reproduces the
pc, global scope, call stack and heap exactly, and the reconstructed
free-list is precisely the set of heap indices absent from the exported
sparse map. -/
theorem c4_export_import_roundtrip (vm : VMState) :
    (importVMState (exportVMState vm) vm).pc = vm.pc ∧
    (importVMState (exportVMState vm) vm).global_memory = vm.global_memory ∧
    (importVMState (exportVMState vm) vm).call_stack = vm.call_stack ∧
    (importVMState (exportVMState vm) vm).heap = vm.heap ∧
    (∀ i : Nat, i ∈ (importVMState (exportVMState vm) vm).free_heap_slots ↔
      (i < vm.heap.length ∧ ∀ p ∈ (exportVMState vm).heap, p.1 ≠ i)) := by
  have hre : restoreHeap ((exportVMState vm).heap) (List.replicate vm.heap.length Value.noneV)
      = vm.heap := by
    have h0 := restoreHeap_roundtrip vm.heap []
    simpa [exportVMState, List.enum] using h0
  refine ⟨rfl, rfl, rfl, hre, ?_⟩
  intro i
  have hfree : (importVMState (exportVMState vm) vm).free_heap_slots
      = (vm.heap.enum.filter (fun p => decide (p.2 = Value.noneV))).map Prod.fst := by
    simp only [importVMState]
    rw [hre]
  have hmem : i ∈ (importVMState (exportVMState vm) vm).free_heap_slots ↔
      vm.heap[i]? = some Value.noneV := by
    rw [hfree]
    constructor
    · intro hmem
      rcases List.mem_map.mp hmem with ⟨p, hp, hpi⟩
      rcases List.mem_filter.mp hp with ⟨henum, hnone⟩
      have hv : p.2 = Value.noneV := of_decide_eq_true hnone
      have hg : vm.heap[p.1]? = some p.2 := List.mem_enum_iff_getElem?.mp henum
      rw [hpi, hv] at hg
      exact hg
    · intro hg
      refine List.mem_map.mpr ⟨(i, Value.noneV), ?_, rfl⟩
      refine List.mem_filter.mpr ⟨List.mk_mem_enum_iff_getElem?.mpr hg, by simp⟩
  rw [hmem]
  constructor
  · intro hg
    have hlen : i < vm.heap.length := (List.getElem?_eq_some.mp hg).1
    refine ⟨hlen, ?_⟩
    intro q hq hqi
    rcases List.mem_filter.mp hq with ⟨henq, hne⟩
    have hgq : vm.heap[q.1]? = some q.2 := List.mem_enum_iff_getElem?.mp henq
    rw [hqi, hg] at hgq
    have : q.2 = Value.noneV := by injection hgq.symm
    exact (of_decide_eq_true hne) this
  · rintro ⟨hlen, habs⟩
    by_cases hno : vm.heap[i] = Value.noneV
    · rw [List.getElem?_eq_getElem hlen, hno]
    · exfalso
      refine habs (i, vm.heap[i]) ?_ rfl
      refine List.mem_filter.mpr ⟨?_, by simpa using hno⟩
      exact List.mk_mem_enum_iff_getElem?.mpr (List.getElem?_eq_getElem hlen)

/-- C8: stepping a DIV whose resolved divisor Python-equals 0 returns a
failed step, sets running to false while leaving halted false, and appends
one console line containing the text Division by zero; the fault is caught
inside step (the model returns a value, it never propagates). -/
theorem c8_div_zero (st : VMState) (t o1 o2 v1 v2 : Value) (ln : Nat)
    (hrun : st.running = true) (hhalt : st.halted = false)
    (hpc : st.pc < st.program.length)
    (hinstr : st.program.getD st.pc ⟨"", [], 0⟩ = ⟨"DIV", [t, o1, o2], ln⟩)
    (h1 : getOperandValue st o1 = .ok v1) (h2 : getOperandValue st o2 = .ok v2)
    (hz : pyEq v2 (.intV 0) = true) :
    (step st).2 = false ∧ (step st).1.running = false ∧ (step st).1.halted = false ∧
    ∃ m, (step st).1.console = st.console ++ [m] ∧
      ∃ a b, m = a ++ "Division by zero" ++ b := by
  have hstep : step st =
      ({ st with
          running := false
          console := st.console ++ [errLine ln st.pc ⟨"Division by zero"⟩] }, false) := by
    simp only [step, hrun, hhalt, hinstr]
    rw [if_neg (by simp [Nat.not_le.mpr hpc])]
    simp [dispatchInstr, handleArithmetic, h1, h2, hz, hhalt]
  rw [hstep]
  refine ⟨rfl, rfl, hhalt, ?_⟩
  exact ⟨_, rfl, _, "\n", rfl⟩

/-- Writing a key and reading it back through the dict model yields the
written value. -/
theorem dget_dset_self (d : PyDict) (k v : Value) (hk : pyEq k k = true) :
    dget (dset d k v) k = some v := by
  induction d with
  | nil => simp [dset, dget, hk]
  | cons p rest ih =>
    by_cases h : pyEq p.1 k = true
    · simp [dset, dget, h]
    · simp [dset, dget, h, ih]

/-- Python equality is reflexive on strings. -/
theorem pyEq_str_refl (s : String) : pyEq (.strV s) (.strV s) = true := by
  simp [pyEq]

/-- A write through a string variable name never raises. -/
theorem setVariableValue_str_ok (st : VMState) (tn : String) (v : Value) :
    (setVariableValue st (.strV tn) v).2 = none := by
  unfold setVariableValue
  cases st.call_stack with
  | nil => rfl
  | cons f rest =>
    by_cases h : dmem f.locals (.strV tn) = true
    · simp [h]
    · simp [h]

/-- Reading a string-named variable right after writing it (the pc bump
in between does not matter) returns the written value: the write lands in
the top frame locals or the global scope, which is exactly where the read
looks first. -/
theorem read_after_write (st : VMState) (tn : String) (v : Value) (n : Nat) :
    getOperandValue { (setVariableValue st (.strV tn) v).1 with pc := n } (.strV tn)
      = .ok v := by
  obtain ⟨prog, labs, pc0, gm, hp, fs, cs, cp, run, hal, con⟩ := st
  cases cs with
  | nil =>
    simp only [setVariableValue, getOperandValue]
    rw [dget_dset_self _ _ _ (pyEq_str_refl tn)]
  | cons f rest =>
    by_cases h : dmem f.locals (.strV tn) = true
    · simp only [setVariableValue, h, if_true, getOperandValue]
      rw [dget_dset_self _ _ _ (pyEq_str_refl tn)]
    · simp only [setVariableValue, getOperandValue]
      rw [if_neg h]
      simp only [getOperandValue]
      rw [dget_dset_self _ _ _ (pyEq_str_refl tn)]

/-- A write through a string name touches only the scope maps: the
running, pc, halted and console fields are unchanged. -/
theorem setVariableValue_str_fields (st : VMState) (tn : String) (v : Value) :
    (setVariableValue st (.strV tn) v).1.running = st.running ∧
    (setVariableValue st (.strV tn) v).1.pc = st.pc ∧
    (setVariableValue st (.strV tn) v).1.halted = st.halted ∧
    (setVariableValue st (.strV tn) v).1.console = st.console := by
  obtain ⟨prog, labs, pc0, gm, hp, fs, cs, cp, run, hal, con⟩ := st
  cases cs with
  | nil => simp [setVariableValue]
  | cons f rest =>
    by_cases h : dmem f.locals (.strV tn) = true
    · simp [setVariableValue, h]
    · simp only [setVariableValue]
      rw [if_neg h]
      simp

/-- C9 amended: a DIV of two resolved integers with a non-zero divisor
whose rounded quotient fits a double writes a float to the target, never
an integer; the stored value is the IEEE-754 binary64 correctly-rounded
value of the rational quotient a/b (exactly a/b only when that quotient
is representable as a double). -/
theorem c9_int_div_rounded_float (st : VMState) (tn : String) (o1 o2 : Value)
    (a b m : Int) (k : Nat) (ln : Nat)
    (hrun : st.running = true) (hhalt : st.halted = false)
    (hpc : st.pc < st.program.length)
    (hinstr : st.program.getD st.pc ⟨"", [], 0⟩ = ⟨"DIV", [.strV tn, o1, o2], ln⟩)
    (h1 : getOperandValue st o1 = .ok (.intV a))
    (h2 : getOperandValue st o2 = .ok (.intV b))
    (hb : b ≠ 0)
    (hround : roundRatToDouble (if b < 0 then -a else a) b.natAbs = some (m, k)) :
    (step st).2 = true ∧
    getOperandValue (step st).1 (.strV tn) = .ok (.floatV m k) ∧
    ∀ j : Int, getOperandValue (step st).1 (.strV tn) ≠ .ok (.intV j) := by
  have hz : pyEq (.intV b) (.intV 0) = false := by
    simp [pyEq, numView, hb]
  have hdiv : pyDiv (.intV a) (.intV b) = .ok (.floatV m k) := by
    simp [pyDiv, numView, hround]
  rcases hsv : setVariableValue st (.strV tn) (.floatV m k) with ⟨st1, e⟩
  have he : e = none := by
    have hx := setVariableValue_str_ok st tn (.floatV m k)
    rw [hsv] at hx
    exact hx
  subst he
  have hst1 : st1 = (setVariableValue st (.strV tn) (.floatV m k)).1 := by rw [hsv]
  have hrun1 : st1.running = true := by
    rw [hst1, (setVariableValue_str_fields st tn _).1, hrun]
  have hstep : step st = ({ st1 with pc := st1.pc + 1 }, true) := by
    simp only [step, hrun, hhalt, hinstr]
    rw [if_neg (by simp [Nat.not_le.mpr hpc])]
    simp [dispatchInstr, handleArithmetic, h1, h2, hz, hdiv, hsv, hrun1]
  have hread : getOperandValue (step st).1 (.strV tn) = .ok (.floatV m k) := by
    rw [hstep, hst1]
    exact read_after_write st tn _ _
  refine ⟨by rw [hstep], hread, ?_⟩
  intro j hj
  rw [hread] at hj
  simp at hj


/-- C10: GETCHAR with a string s and a negative integer index i in
[-len(s), -1] succeeds (no fault) and writes the 1-character string at
position len(s)+i, counting from the end, to the target. -/
theorem c10_getchar_negative_index (st : VMState) (tn : String) (so io : Value)
    (s : String) (i : Int) (ln : Nat)
    (hrun : st.running = true) (hhalt : st.halted = false)
    (hpc : st.pc < st.program.length)
    (hinstr : st.program.getD st.pc ⟨"", [], 0⟩ = ⟨"GETCHAR", [.strV tn, so, io], ln⟩)
    (hs : getOperandValue st so = .ok (.strV s))
    (hi : getOperandValue st io = .ok (.intV i))
    (hlo : -(s.length : Int) ≤ i) (hhi : i ≤ -1) :
    (step st).2 = true ∧
    getOperandValue (step st).1 (.strV tn)
      = .ok (.strV (pyCharAt s ((s.length : Int) + i).toNat)) := by
  have hig : i < 0 := by omega
  have hcond : 0 ≤ (s.length : Int) + i ∧ (s.length : Int) + i < (s.length : Int) := by
    omega
  have hidx : pyStrIndex s i = some (pyCharAt s ((s.length : Int) + i).toNat) := by
    simp [pyStrIndex, hig, hcond]
  rcases hsv : setVariableValue st (.strV tn)
      (.strV (pyCharAt s ((s.length : Int) + i).toNat)) with ⟨st1, e⟩
  have he : e = none := by
    have hx := setVariableValue_str_ok st tn (.strV (pyCharAt s ((s.length : Int) + i).toNat))
    rw [hsv] at hx
    exact hx
  subst he
  have hst1 : st1 = (setVariableValue st (.strV tn)
      (.strV (pyCharAt s ((s.length : Int) + i).toNat))).1 := by
    rw [hsv]
  have hrun1 : st1.running = true := by
    rw [hst1, (setVariableValue_str_fields st tn _).1, hrun]
  have hstep : step st = ({ st1 with pc := st1.pc + 1 }, true) := by
    simp only [step, hrun, hhalt, hinstr]
    rw [if_neg (by simp [Nat.not_le.mpr hpc])]
    simp [dispatchInstr, handleString, hs, hi, numViewInt, hidx, hsv, hrun1]
  have hread : getOperandValue (step st).1 (.strV tn)
      = .ok (.strV (pyCharAt s ((s.length : Int) + i).toNat)) := by
    rw [hstep, hst1]
    exact read_after_write st tn _ _
  exact ⟨by rw [hstep], hread⟩


/-- With no active frame, operand evaluation cannot raise: a literal is
returned and a name falls through to the global scope or None. -/
theorem getOperandValue_ok_of_no_stack (st : VMState) (hcs : st.call_stack = [])
    (o : Value) : ∃ w, getOperandValue st o = .ok w := by
  cases o with
  | strV s =>
    simp only [getOperandValue, hcs]
    cases dget st.global_memory (.strV s) with
    | none => exact ⟨Value.noneV, rfl⟩
    | some v => exact ⟨v, rfl⟩
  | intV n => exact ⟨_, rfl⟩
  | floatV n d => exact ⟨_, rfl⟩
  | boolV b => exact ⟨_, rfl⟩
  | ptrV k loc => exact ⟨_, rfl⟩
  | noneV => exact ⟨_, rfl⟩

/-- C5: RETURN with an empty call stack faults (failed step, running
false, stack left empty); otherwise its optional operand is evaluated
under the callee (top) frame before the pop (absent when omitted), the
frame is popped, pc becomes the stored return address, and when the
popped frame carried a return-variable name the value is written into the
new top-of-stack scope: the caller frame locals, or the global scope when
the stack became empty. -/
theorem c5_return_semantics (st : VMState) (ops : List Value) (ln : Nat)
    (hrun : st.running = true) (hhalt : st.halted = false)
    (hpc : st.pc < st.program.length)
    (hinstr : st.program.getD st.pc ⟨"", [], 0⟩ = ⟨"RETURN", ops, ln⟩) :
    (st.call_stack = [] → (step st).2 = false ∧ (step st).1.running = false ∧
      (step st).1.call_stack = []) ∧
    (∀ f rest v, st.call_stack = f :: rest →
      evalReturnValue st ops = .ok v →
      ((f.return_var_name = Value.noneV →
        step st = ({ st with call_stack := rest, pc := f.return_address }, true)) ∧
       (∀ tn : String, f.return_var_name = .strV tn → tn ≠ "" →
        (rest = [] →
          step st = ({ st with
              call_stack := []
              pc := f.return_address
              global_memory := dset st.global_memory (.strV tn) v }, true)) ∧
        (∀ g rs, rest = g :: rs →
          step st = ({ st with
              call_stack := { g with locals := dset g.locals (.strV tn) v } :: rs
              pc := f.return_address }, true))))) := by
  constructor
  · intro hcs
    obtain ⟨w, hw⟩ : ∃ w, evalReturnValue st ops = .ok w := by
      cases ops with
      | nil => exact ⟨_, rfl⟩
      | cons o rest => exact getOperandValue_ok_of_no_stack st hcs o
    have hstep : step st = ({ st with
        running := false
        console := st.console ++
          [errLine ln st.pc ⟨"RETURN instruction outside of a function call. Halting."⟩] },
        false) := by
      simp only [step, hrun, hhalt, hinstr]
      rw [if_neg (by simp [Nat.not_le.mpr hpc])]
      simp [dispatchInstr, handleFunction, hw, hcs, hhalt]
    rw [hstep]
    exact ⟨rfl, rfl, hcs⟩
  · intro f rest v hcs hev
    constructor
    · intro hrv
      simp only [step, hrun, hhalt, hinstr]
      rw [if_neg (by simp [Nat.not_le.mpr hpc])]
      simp [dispatchInstr, handleFunction, hev, hcs, hrv, pyTruthy, hrun, hhalt]
    · intro tn hrv htn
      have htr : pyTruthy f.return_var_name = true := by simp [hrv, pyTruthy, htn]
      constructor
      · intro hrest
        subst hrest
        simp only [step, hrun, hhalt, hinstr]
        rw [if_neg (by simp [Nat.not_le.mpr hpc])]
        simp [dispatchInstr, handleFunction, hev, hcs, htr, hrv, setVariableValue, hrun, hhalt, pyTruthy, htn]
      · intro g rs hrest
        subst hrest
        simp only [step, hrun, hhalt, hinstr]
        rw [if_neg (by simp [Nat.not_le.mpr hpc])]
        simp [dispatchInstr, handleFunction, hev, hcs, htr, hrv, setVariableValue, hrun, hhalt, pyTruthy, htn]


/-- Any entry of an updated label table is an old entry or carries the
newly written index. -/
theorem mem_lset (labs : LabelTable) (k : String) (v : Nat) :
    ∀ p ∈ lset labs k v, p ∈ labs ∨ p.2 = v := by
  induction labs with
  | nil =>
    intro p hp
    simp only [lset, List.mem_singleton] at hp
    subst hp
    exact Or.inr rfl
  | cons q rest ih =>
    rcases q with ⟨k2, w⟩
    intro p hp
    simp only [lset] at hp
    by_cases hq : (k2 == k) = true
    · rw [if_pos hq] at hp
      rcases List.mem_cons.mp hp with h1 | h1
      · subst h1
        exact Or.inr rfl
      · exact Or.inl (List.mem_cons_of_mem _ h1)
    · rw [if_neg hq] at hp
      rcases List.mem_cons.mp hp with h1 | h1
      · subst h1
        exact Or.inl (List.mem_cons_self _ _)
      · rcases ih p h1 with h2 | h2
        · exact Or.inl (List.mem_cons_of_mem _ h2)
        · exact Or.inr h2

/-- A successful label lookup comes from some table entry. -/
theorem lget_mem (labs : LabelTable) (k : String) (n : Nat)
    (h : lget labs k = some n) : ∃ p ∈ labs, p.2 = n := by
  induction labs with
  | nil => simp [lget] at h
  | cons q rest ih =>
    rcases q with ⟨k2, w⟩
    simp only [lget] at h
    by_cases hq : (k2 == k) = true
    · rw [if_pos hq] at h
      injection h with h1
      exact ⟨(k2, w), List.mem_cons_self _ _, h1⟩
    · rw [if_neg hq] at h
      obtain ⟨p, hp, hv⟩ := ih h
      exact ⟨p, List.mem_cons_of_mem _ hp, hv⟩

/-- Through the parse loop, every label table entry is bounded by the
number of instructions emitted so far, and the instruction list only
grows. -/
theorem parseLines_labels_bounded (ls : List (Nat × List Char)) (acc : List Instr)
    (labs : LabelTable) (hinv : ∀ p ∈ labs, p.2 ≤ acc.length) :
    (∀ p ∈ (parseLines ls acc labs).2.1, p.2 ≤ (parseLines ls acc labs).1.length) ∧
    acc.length ≤ (parseLines ls acc labs).1.length := by
  induction ls generalizing acc labs with
  | nil => exact ⟨by simpa [parseLines] using hinv, by simp [parseLines]⟩
  | cons x rest ih =>
    rcases x with ⟨i, line⟩
    rw [parseLines]
    split
    · exact ih acc labs hinv
    · split
      · refine ih acc _ ?_
        intro p hp
        rcases mem_lset labs _ acc.length p hp with h | h
        · exact hinv p h
        · rw [h]
      · dsimp only
        split
        · exact ⟨by simpa using hinv, by simp⟩
        · have hstep := ih (acc ++
            [⟨⟨((stripChars line).takeWhile isWordChar).map Char.toUpper⟩,
              if (stripChars ((stripChars line).drop
                    ((stripChars line).takeWhile isWordChar).length)).isEmpty then []
              else (splitCommas (stripChars ((stripChars line).drop
                    ((stripChars line).takeWhile isWordChar).length))).map
                  (fun o => parseOperandValue (stripChars o)), i⟩]) labs ?_
          · refine ⟨hstep.1, ?_⟩
            refine le_trans ?_ hstep.2
            simp
          · intro p hp
            refine le_trans (hinv p hp) ?_
            simp


/-- When the resolution pass succeeds, the program length is unchanged
and every jump instruction now carries an instruction index that came out
of the label table. -/
theorem resolveJumps_success (labs : LabelTable) (l l2 : List Instr)
    (h : resolveJumps labs l = (l2, none)) :
    l2.length = l.length ∧
    ∀ instr ∈ l2,
      (instr.opcode == "JUMP" || instr.opcode == "JUMPT" || instr.opcode == "JUMPF") = true →
      ∃ n : Nat, instr.operands.head? = some (.intV (n : Int)) ∧
        ∃ k, lget labs k = some n := by
  induction l generalizing l2 with
  | nil =>
    rw [resolveJumps] at h
    injection h with h1 h2
    subst h1
    simp
  | cons instr rest ih =>
    rw [resolveJumps] at h
    by_cases hj :
        (instr.opcode == "JUMP" || instr.opcode == "JUMPT" || instr.opcode == "JUMPF") = true
    · rw [if_pos hj] at h
      cases hops : instr.operands with
      | nil =>
        rw [hops] at h
        injection h with h1 h2
        cases h2
      | cons op0 ops =>
        rw [hops] at h
        cases op0 with
        | strV s =>
          dsimp only at h
          cases hlk : lget labs s with
          | none =>
            rw [hlk] at h
            injection h with h1 h2
            cases h2
          | some idx =>
            rw [hlk] at h
            dsimp only at h
            rcases hr : resolveJumps labs rest with ⟨r, e⟩
            rw [hr] at h
            injection h with h1 h2
            subst h2
            subst h1
            obtain ⟨hlen, hmem⟩ := ih r hr
            refine ⟨by simp [hlen], ?_⟩
            intro instr2 hm hop2
            rcases List.mem_cons.mp hm with hcase | hcase
            · subst hcase
              exact ⟨idx, rfl, s, hlk⟩
            · exact hmem instr2 hcase hop2
        | intV n =>
          dsimp only at h
          injection h with h1 h2
          cases h2
        | floatV n d =>
          dsimp only at h
          injection h with h1 h2
          cases h2
        | boolV b =>
          dsimp only at h
          injection h with h1 h2
          cases h2
        | ptrV k loc =>
          dsimp only at h
          injection h with h1 h2
          cases h2
        | noneV =>
          dsimp only at h
          injection h with h1 h2
          cases h2
    · rw [if_neg hj] at h
      rcases hr : resolveJumps labs rest with ⟨r, e⟩
      rw [hr] at h
      injection h with h1 h2
      subst h2
      subst h1
      obtain ⟨hlen, hmem⟩ := ih r hr
      refine ⟨by simp [hlen], ?_⟩
      intro instr2 hm hop2
      rcases List.mem_cons.mp hm with hcase | hcase
      · subst hcase
        exact absurd hop2 hj
      · exact hmem instr2 hcase hop2

/-- C7 amended: after a successful load every JUMP/JUMPT/JUMPF first
operand is a label-table index, which is at most the program length (it
can equal the length when the label follows the last instruction, so the
claimed strict bound fails); CALL labels are not resolved at all, per the
counterexample. -/
theorem c7_jump_targets_bounded (lines : List String) (st st2 : VMState)
    (h : loadProgram lines st = (st2, none)) :
    ∀ instr ∈ st2.program,
      (instr.opcode = "JUMP" ∨ instr.opcode = "JUMPT" ∨ instr.opcode = "JUMPF") →
      ∃ n : Nat, instr.operands.head? = some (.intV (n : Int)) ∧
        n ≤ st2.program.length := by
  rcases hp : parseLines ((lines.map String.toList).enum) [] [] with ⟨raw, labs, perr⟩
  simp only [loadProgram, hp] at h
  cases perr with
  | some e1 => simp at h
  | none =>
    rcases hr : resolveJumps labs raw with ⟨prog, rerr⟩
    simp only [hr] at h
    cases rerr with
    | some e1 => simp at h
    | none =>
      simp only [] at h
      have hst2 : st2.program = prog := by
        have hfst := congrArg Prod.fst h
        simp at hfst
        rw [← hfst]
      obtain ⟨hlen, hjump⟩ := resolveJumps_success labs raw prog hr
      have hbound0 := parseLines_labels_bounded ((lines.map String.toList).enum) [] []
        (by simp)
      rw [hp] at hbound0
      have hbound : ∀ p ∈ labs, p.2 ≤ raw.length := hbound0.1
      intro instr hmem hop
      have hb : (instr.opcode == "JUMP" || instr.opcode == "JUMPT" ||
          instr.opcode == "JUMPF") = true := by
        rcases hop with h1 | h1 | h1 <;> simp [h1]
      obtain ⟨n, hhead, k, hlk⟩ := hjump instr (hst2 ▸ hmem) hb
      obtain ⟨p, hpmem, hpv⟩ := lget_mem labs k n hlk
      refine ⟨n, hhead, ?_⟩
      rw [hst2, hlen, ← hpv]
      exact hbound p hpmem


/-- C2 amended: any failing load leaves the engine not running, so a
subsequent step refuses to execute; the parsed instructions themselves,
however, may remain installed (see the counterexample). -/
theorem c2_load_error_not_running (lines : List String) (st : VMState) (e : LoadErr)
    (h : (loadProgram lines st).2 = some e) :
    (loadProgram lines st).1.running = false ∧
    (step (loadProgram lines st).1).2 = false ∧
    (step (loadProgram lines st).1).1.running = false := by
  have hrun : (loadProgram lines st).1.running = false := by
    rcases hp : parseLines ((lines.map String.toList).enum) [] [] with ⟨raw, labs, perr⟩
    simp only [loadProgram, hp]
    cases perr with
    | some e1 => simp [resetState]
    | none =>
      rcases hr : resolveJumps labs raw with ⟨prog, rerr⟩
      simp only [hr]
      cases rerr with
      | some e1 => simp [resetState]
      | none =>
        exfalso
        simp only [loadProgram, hp, hr] at h
        simp at h
  refine ⟨hrun, ?_, ?_⟩
  · simp [step, hrun]
  · simp [step, hrun]

/-- C1: the claim says reading `ARGi` for a REF_PARAM-bound parameter
dereferences the pointer.  On the code, CALL mirrors the pointer into the
frame locals, the locals branch of `_get_operand_value` wins, and the read
returns the pointer tuple itself — here `(global, x)` — even though the
pointed-to value is 5.  The dereferencing params branch is unreachable for
frames created by CALL. -/
theorem c1_arg_read_returns_pointer :
    getOperandValue c1State3 (.strV "ARG0") = .ok (.ptrV "global" (.strV "x")) ∧
    getValueFromPointer c1State3 (.ptrV "global" (.strV "x")) = .ok (.intV 5) ∧
    Value.ptrV "global" (.strV "x") ≠ .intV 5 :=
  ⟨rfl, rfl, by decide⟩

/-- C2 counterexample: loading `JUMP nowhere` fails with the undefined
label error, yet the parsed one-instruction sequence IS installed in the
program field (the assignment happens before the resolution pass), so
the engine is not left with an empty program. -/
theorem c2_program_installed_after_undefined_label :
    (loadProgram ["JUMP nowhere"] initVM).2 = some (.undefLabel "nowhere" 0) ∧
    (loadProgram ["JUMP nowhere"] initVM).1.program.length = 1 ∧
    (loadProgram ["JUMP nowhere"] initVM).1.program ≠ [] := by
  refine ⟨by decide, by decide, by decide⟩

/-- C2 witness: the amended theorem applied to the concrete failing load. -/
theorem c2_load_error_not_running_witness :
    (loadProgram ["JUMP missing"] initVM).1.running = false ∧
    (step (loadProgram ["JUMP missing"] initVM).1).2 = false ∧
    (step (loadProgram ["JUMP missing"] initVM).1).1.running = false :=
  c2_load_error_not_running ["JUMP missing"] initVM (.undefLabel "missing" 0) (by decide)

/-- C6: the loader splits the operand list of `CONST_ASSIGN x, "a,b"` at
the comma inside the quotes, producing three operands — the variable x
and the two fragments — instead of two operands with the string a,b. -/
theorem c6_comma_in_string_splits :
    (loadProgram ["CONST_ASSIGN x, \"a,b\""] initVM).2 = none ∧
    (loadProgram ["CONST_ASSIGN x, \"a,b\""] initVM).1.program
      = [⟨"CONST_ASSIGN", [.strV "x", .strV "\"a", .strV "b\""], 0⟩] ∧
    ∀ instr ∈ (loadProgram ["CONST_ASSIGN x, \"a,b\""] initVM).1.program,
      Value.strV "a,b" ∉ instr.operands := by
  refine ⟨by decide, by decide, by decide⟩

/-- C7 counterexample: `CALL f, 0, r` loads successfully even though the
label f is never defined; the CALL function-label operand survives loading
as the unresolved string f, not as an instruction index. -/
theorem c7_call_label_unresolved :
    (loadProgram ["CALL f, 0, r"] initVM).2 = none ∧
    (loadProgram ["CALL f, 0, r"] initVM).1.program
      = [⟨"CALL", [.strV "f", .intV 0, .strV "r"], 0⟩] ∧
    ∀ n : Int,
      ((loadProgram ["CALL f, 0, r"] initVM).1.program.getD 0 ⟨"", [], 0⟩).operands.getD 0
        Value.noneV ≠ .intV n := by
  refine ⟨by decide, by decide, ?_⟩
  intro n h
  rw [show ((loadProgram ["CALL f, 0, r"] initVM).1.program.getD 0 ⟨"", [], 0⟩).operands.getD 0
      Value.noneV = .strV "f" from by decide] at h
  cases h

/-- C7 witness: the amended bound applied to a concrete load whose label
sits after the last instruction (resolved index = program length). -/
theorem c7_jump_targets_bounded_witness :
    ∃ n : Nat,
      ((loadProgram ["JUMP e", "e:"] initVM).1.program.getD 0 ⟨"", [], 0⟩).operands.head?
        = some (.intV (n : Int)) ∧
      n ≤ (loadProgram ["JUMP e", "e:"] initVM).1.program.length := by
  have h : loadProgram ["JUMP e", "e:"] initVM
      = ((loadProgram ["JUMP e", "e:"] initVM).1, none) := by decide
  exact c7_jump_targets_bounded ["JUMP e", "e:"] initVM _ h
    ((loadProgram ["JUMP e", "e:"] initVM).1.program.getD 0 ⟨"", [], 0⟩)
    (by decide) (Or.inl (by decide))

/-- C5 witness: the RETURN semantics applied to a concrete one-frame
state: the value of t is evaluated in the callee frame, the frame is
popped, pc becomes the stored return address 7, and 42 is written to the
global r (the stack became empty). -/
theorem c5_return_semantics_witness :
    step c5W = ({ c5W with
        call_stack := []
        pc := 7
        global_memory := dset c5W.global_memory (.strV "r") (.intV 42) }, true) :=
  ((c5_return_semantics c5W [.strV "t"] 0 rfl rfl (by decide) rfl).2
    ⟨.strV "f", 7, .strV "r", [(.strV "t", .intV 42)], []⟩ [] (.intV 42) rfl rfl).2
    "r" rfl (by decide) |>.1 rfl

/-- C8 witness: `DIV res, 10, 0` on a fresh engine. -/
theorem c8_div_zero_witness :
    (step c8W).2 = false ∧ (step c8W).1.running = false ∧ (step c8W).1.halted = false ∧
    ∃ m, (step c8W).1.console = c8W.console ++ [m] ∧
      ∃ a b, m = a ++ "Division by zero" ++ b :=
  c8_div_zero c8W (.strV "res") (.intV 10) (.intV 0) (.intV 10) (.intV 0) 0
    rfl rfl (by decide) rfl rfl rfl (by decide)

/-- C9 counterexample: the original claim says the stored float equals
the exact rational quotient.  `DIV r, 1, 3` stores the nearest binary64,
6004799503160661 / 2^54, whose value differs from 1/3 (this is the pair
CPython reports via as_integer_ratio). -/
theorem c9_exact_quotient_counterexample :
    (step c9X).2 = true ∧
    getOperandValue (step c9X).1 (.strV "r")
      = .ok (.floatV 6004799503160661 18014398509481984) ∧
    ((6004799503160661 : ℚ) / (18014398509481984 : ℚ) ≠ (1 : ℚ) / (3 : ℚ)) := by
  refine ⟨rfl, rfl, by norm_num⟩

/-- C9 witness: `DIV res, 10, 2` — the quotient 5 is representable, so
the stored value is the float 5.0 (the canonical dyadic pair 5/1), and it
is not the integer 5. -/
theorem c9_int_div_rounded_float_witness :
    (step c9W).2 = true ∧
    getOperandValue (step c9W).1 (.strV "res") = .ok (.floatV 5 1) ∧
    ∀ j : Int, getOperandValue (step c9W).1 (.strV "res") ≠ .ok (.intV j) :=
  c9_int_div_rounded_float c9W "res" (.intV 10) (.intV 2) 10 2 5 1 0
    rfl rfl (by decide) rfl rfl rfl (by decide) (by decide)

/-- C10 witness: `GETCHAR c, s, -1` with s = abc succeeds and stores the
character c (position 3 + (-1) = 2, counting from the end). -/
theorem c10_getchar_negative_index_witness :
    (step c10W).2 = true ∧
    getOperandValue (step c10W).1 (.strV "c")
      = .ok (.strV (pyCharAt "abc" ((("abc" : String).length : Int) + (-1)).toNat)) :=
  c10_getchar_negative_index c10W "c" (.strV "s") (.intV (-1)) "abc" (-1) 0
    rfl rfl (by decide) rfl rfl rfl (by decide) (by decide)

/-- C3 counterexample: the claim says the first allocation after freeing A
returns A again.  On the code the fresh free-list is `[0, ..., 99]`; A = 0
is appended to the tail on free, so the next allocation returns 1, not 0. -/
theorem c3_fifo_reuse_counterexample :
    c3Alloc1.2 = 0 ∧ c3Alloc2.2 = 1 ∧ c3Alloc2.2 ≠ c3Alloc1.2 := by
  refine ⟨rfl, rfl, ?_⟩
  decide

/-- C3 amended: reuse is FIFO through the whole queue.  Freeing A = 0
appends it to the tail behind the 99 never-used slots, so the two
following allocations return the never-used slots 1 and 2; A itself would
be reused only after the 99 slots ahead of it are consumed. -/
theorem c3_fifo_tail_append :
    c3Alloc1.2 = 0 ∧
    c3Freed.free_heap_slots = List.range' 1 99 ++ [0] ∧
    c3Alloc2.2 = 1 ∧ c3Alloc3.2 = 2 := by
  refine ⟨rfl, ?_, rfl, rfl⟩
  decide
